import Mathlib

/-!
Verification of the incremental processing engine of the F1 data pipeline
(src/incremental_processing.py together with the constants of src/config.py).

The embedding models, close to the source:
- the configuration constants (INITIAL_LOAD_YEAR, TABLES_WITH_YEAR);
- the processing state (a JSON dict table name -> processed_years, last_update),
  with get_processed_years and mark_years_processed;
- the partition planner get_years_to_process;
- the schema reconciliation and concat step of process_table_incremental;
- process_table_incremental itself, with fault injection for the two points
  where the source can raise inside its try block and still matter to the
  claims: the table transform (an opaque external stage per the spec) and the
  durable silver write (write_parquet);
- process_all_incremental, the per run loop over the fact tables;
- the byte level behaviour of _save_state (a plain truncate and rewrite of
  the state file), needed to discuss crash atomicity;
- pt_core_null, the per table step translated with year values that may be
  the JSON null, covering the rows whose raceId finds no match in races
  (the main pipeline is its specialisation to tables whose rows all resolve
  to int years).

Tabular data: a row is an association list from column name to integer cell
value; a missing entry models a null cell (in particular a null year after
the left join with the races table).  A dataset carries its column list and
its rows.  Python sorted is modelled by insertionSort (both are stable
ascending sorts); Python set values are modelled by lists used up to
membership, with dedup applied where the source materialises a set.
-/

/-- Cell values are integers; a missing entry is a null. -/
abbrev Row := List (String × Int)

/-- An in-memory tabular value: column names plus rows. -/
structure Dataset where
  cols : List String
  rows : List Row
deriving DecidableEq, Repr

/-! ## config.py -/

/-- config.INITIAL_LOAD_YEAR (the bootstrap cutoff). -/
def INITIAL_LOAD_YEAR : Int := 2010

/-- config.TABLES_WITH_YEAR, the fact table list, in source order. -/
def TABLES_WITH_YEAR : List String :=
  ["races", "results", "qualifying", "sprint_results", "lap_times",
   "pit_stops", "driver_standings", "constructor_standings",
   "constructor_results"]

/-- config.has_year_column: membership in TABLES_WITH_YEAR. -/
def has_year_column (t : String) : Bool := TABLES_WITH_YEAR.contains t

/-! ## Processing state (the JSON state file, in memory) -/

/-- One entry of the state dict: processed_years plus last_update. -/
structure TableState where
  processed_years : List Int
  last_update : Int
deriving DecidableEq, Repr

/-- The state dict: table name -> TableState, as an association list
(Python dicts preserve insertion order, as does the list). -/
abbrev ProcState := List (String × TableState)

/-- IncrementalProcessor.get_processed_years: the processed set of a table,
empty when the table is unseen. -/
def get_processed_years (st : ProcState) (t : String) : List Int :=
  match st.lookup t with
  | some ts => ts.processed_years
  | none => []

/-- Dict update: replace the binding of an existing key in place, else append
a new binding (insertion order semantics of a Python dict). -/
def setAssoc {β : Type} (s : List (String × β)) (t : String) (v : β) :
    List (String × β) :=
  if (s.lookup t).isSome then
    s.map (fun p => if p.1 = t then (t, v) else p)
  else s ++ [(t, v)]

/-- Update of the state dict at one table. -/
def setTableState (st : ProcState) (t : String) (v : TableState) : ProcState :=
  setAssoc st t v

/-- sorted(list(set(a) union set(b))): deduplicated union, ascending. -/
def union_sorted (a b : List Int) : List Int :=
  ((a ++ b).dedup).insertionSort (· ≤ ·)

/-- IncrementalProcessor.mark_years_processed: union the years into the
processed set of the table, stamp the update time, and persist. -/
def mark_years_processed (st : ProcState) (t : String) (years : List Int)
    (now : Int) : ProcState :=
  setTableState st t ⟨union_sorted (get_processed_years st t) years, now⟩

/-! ## Partition planner (get_years_to_process) -/

/-- The planner over an explicit processed set: the body of
get_years_to_process once the processed set of the table has been read.
Bootstrap (initial load requested AND nothing processed yet): the available
years at or below the cutoff.  Otherwise incremental: the available years not
yet processed.  The result is sorted ascending. -/
def plan_years (processed : List Int) (available : List Int)
    (is_initial_load : Bool) : List Int :=
  let ys :=
    if is_initial_load ∧ processed = [] then
      available.filter (fun y => decide (y ≤ INITIAL_LOAD_YEAR))
    else
      available.filter (fun y => decide (y ∉ processed))
  ys.insertionSort (· ≤ ·)

/-- IncrementalProcessor.get_years_to_process. -/
def get_years_to_process (st : ProcState) (t : String) (available : List Int)
    (is_initial_load : Bool) : List Int :=
  plan_years (get_processed_years st t) available is_initial_load

/-! ## Schema reconciliation (the append branch of process_table_incremental) -/

/-- Python set equality of two column lists. -/
def colsSetEq (a b : List String) : Bool :=
  a.all (fun c => decide (c ∈ b)) && b.all (fun c => decide (c ∈ a))

/-- Code point comparison of two strings, as Python compares str values. -/
def charsLe : List Char → List Char → Bool
  | [], _ => true
  | _ :: _, [] => false
  | a :: as, b :: bs =>
    if a.toNat < b.toNat then true
    else if b.toNat < a.toNat then false
    else charsLe as bs

/-- The column name order used by sorted(list(common_cols)). -/
def colLe (a b : String) : Prop := charsLe a.data b.data = true

instance : DecidableRel colLe := fun a b => by
  unfold colLe; infer_instance

/-- sorted(...) over column names. -/
def sortedCols (l : List String) : List String := l.insertionSort colLe

/-- df.select(cs): keep the listed columns; each row keeps exactly its cells
at those columns (a pure projection, no cell invented, cast or filled). -/
def selectCols (df : Dataset) (cs : List String) : Dataset :=
  ⟨cs, df.rows.map (fun r => r.filter (fun p => decide (p.1 ∈ cs)))⟩

/-- Lines 198 to 213 of process_table_incremental: align the existing and the
transformed dataset before the concat.  When the column sets already agree
nothing is touched and no warning is raised; otherwise both sides are
projected to the sorted common column list and the warning carries the
columns present only on one side (existing only, new only). -/
def reconcile_schemas (dfE dfT : Dataset) :
    (Dataset × Dataset) × Option (List String × List String) :=
  if colsSetEq dfE.cols dfT.cols then ((dfE, dfT), none)
  else
    let common := sortedCols ((dfE.cols.filter (fun c => decide (c ∈ dfT.cols))).dedup)
    ((selectCols dfE common, selectCols dfT common),
     some ((dfE.cols.filter (fun c => decide (c ∉ dfT.cols))).dedup,
           (dfT.cols.filter (fun c => decide (c ∉ dfE.cols))).dedup))

/-- pl.concat([existing, transformed]) after reconciliation: the existing
rows followed by the new rows. -/
def merge_step (dfE dfT : Dataset) : Dataset :=
  ⟨(reconcile_schemas dfE dfT).1.1.cols,
   (reconcile_schemas dfE dfT).1.1.rows ++ (reconcile_schemas dfE dfT).1.2.rows⟩

/-! ## Year resolution (the left join with the races table) -/

/-- Look up the year of a raceId in the races dataset (races is keyed by
raceId; the first matching row is taken). -/
def races_year (races : Dataset) (rid : Int) : Option Int :=
  (races.rows.find? (fun r => r.lookup "raceId" == some rid)).bind
    (fun r => r.lookup "year")

/-- Lines 148 to 155: when the table has a raceId column, left join with
races(raceId, year); a row whose raceId has no match keeps a null year.
When the table already has its own year column the joined column is suffixed
(year_right) by polars, so the year read downstream stays the own column.
A table with neither column is rejected before this function is used. -/
def with_year (races : Dataset) (df : Dataset) : Dataset :=
  if "raceId" ∈ df.cols then
    let ycol := if "year" ∈ df.cols then "year_right" else "year"
    ⟨df.cols ++ [ycol],
     df.rows.map (fun r =>
       match r.lookup "raceId" with
       | some rid =>
         match races_year races rid with
         | some y => r ++ [(ycol, y)]
         | none => r
       | none => r)⟩
  else df

/-! ## Per table processing -/

/-- The error descriptors a per table run can fail with.  bronzeNotFound and
noYearColumn are the explicit failed returns of the source; racesReadError,
nullYearCompare, transformError and writeError are exceptions raised inside
the try block (reading races.parquet, Python sorted comparing a null year
with an int, the transform, write_parquet) and caught into a failed outcome. -/
inductive PErr where
  | bronzeNotFound
  | racesReadError
  | noYearColumn
  | nullYearCompare
  | transformError
  | writeError
deriving DecidableEq, Repr

/-- The per table outcome dict, status plus payload. -/
inductive Outcome where
  | skipped
  | upToDate
  | success (years_processed : List Int) (rows_processed : Nat) (total_rows : Nat)
  | failed (e : PErr)
deriving DecidableEq, Repr

/-- The status string of the outcome dict. -/
def Outcome.status : Outcome → String
  | .skipped => "skipped"
  | .upToDate => "up_to_date"
  | .success _ _ _ => "success"
  | .failed _ => "failed"

/-- The outcome an immediate second run of the same table yields when the
world has not changed in between: a success becomes up_to_date (its years are
now recorded as processed), every other outcome repeats itself. -/
def rerunOutcome : Outcome → Outcome
  | .success _ _ _ => .upToDate
  | o => o

/-- The read only collaborators of a table step: the bronze layer (one
dataset per existing file), the opaque per table transform with failure
injection, and whether the durable silver write of a table succeeds. -/
structure CoreEnv where
  bronze : List (String × Dataset)
  transform : String → Dataset → Except Unit Dataset
  writeOk : String → Bool

/-- The result of preparing a fact table: the bronze data joined with its
year, the sorted distinct non null years, and whether some row has a null
year (an unmatched raceId or a null cell). -/
structure Prepared where
  dfY : Dataset
  available : List Int
  hasNull : Bool
deriving DecidableEq, Repr

/-- Lines 131 to 165: read the bronze file (failed bronze_file_not_found if
absent), read races.parquet (an uncaught-at-this-level exception if absent,
caught by the outer handler), resolve the year column (failed no_year_column
when the table has neither raceId nor year), then compute
sorted(unique(year)).  Python sorted raises a TypeError when a null year is
compared with an int, i.e. when the distinct year values mix a null with at
least one int; that raise is modelled as the nullYearCompare error.  The
available list keeps the int years only; a lone null travelling further (the
all rows unmatched case) is modelled faithfully by pt_core_null below. -/
def prepare (ce : CoreEnv) (t : String) : Except PErr Prepared :=
  match ce.bronze.lookup t with
  | none => .error .bronzeNotFound
  | some df =>
    match ce.bronze.lookup "races" with
    | none => .error .racesReadError
    | some races =>
      if "raceId" ∉ df.cols ∧ "year" ∉ df.cols then .error .noYearColumn
      else
        let dfY := with_year races df
        let yv := (dfY.rows.map (fun r => r.lookup "year")).dedup
        if none ∈ yv ∧ 2 ≤ yv.length then .error .nullYearCompare
        else
          .ok ⟨dfY, (yv.filterMap id).insertionSort (· ≤ ·), decide (none ∈ yv)⟩

/-- df_with_year.filter(pl.col(year).is_in(years)): the rows whose resolved
year lies in the planned list; a null year never matches. -/
def filter_years (df : Dataset) (ys : List Int) : Dataset :=
  ⟨df.cols,
   df.rows.filter (fun r =>
     match r.lookup "year" with
     | some y => decide (y ∈ ys)
     | none => false)⟩

/-- Line 194: the written dataset is the concatenation with the existing
silver data only when the silver file exists AND this is not an initial
load; otherwise the transformed slice alone becomes the full dataset. -/
def pt_final (silverT : Option Dataset) (init : Bool) (dfT : Dataset) : Dataset :=
  if silverT.isSome ∧ init = false then merge_step (silverT.getD ⟨[], []⟩) dfT
  else dfT

/-- Lines 167 to 238 over a prepared table: plan the years (a null year
reaching the bootstrap comparison with the cutoff raises, modelled as
nullYearCompare), return up_to_date on an empty plan, filter, transform,
build the final dataset (pt_final), then write.  The second component is the
committed effect: none when nothing was written (so neither the silver store
nor the state changes), or the written dataset together with the planned
years to mark.  One deliberate specialisation: this function types the year
lists as ints, so when every row of the table has a null year and the run is
incremental — where the source carries [null] through the plan, writes an
empty filtered slice and commits the null — it plans no years and reports
up_to_date.  The general translation pt_core_null below keeps the null and
is the model against which the claims about that corner are settled; the
theorems stated over this specialisation are unaffected by it, since their
hypotheses rule the corner out or their conclusions (idempotence, isolation,
one outcome per table, crash safety of a failed write) hold of the source
there as well. -/
def pt_plan_merge (ce : CoreEnv) (t : String) (p : Prepared)
    (silverT : Option Dataset) (processed : List Int) (init : Bool) :
    Outcome × Option (Dataset × List Int) :=
  if p.hasNull ∧ init ∧ processed = [] then (.failed .nullYearCompare, none)
  else if plan_years processed p.available init = [] then (.upToDate, none)
  else
    match ce.transform t
        (filter_years p.dfY (plan_years processed p.available init)) with
    | .error _ => (.failed .transformError, none)
    | .ok dfT =>
      if ce.writeOk t then
        (.success (plan_years processed p.available init) dfT.rows.length
           (pt_final silverT init dfT).rows.length,
         some (pt_final silverT init dfT, plan_years processed p.available init))
      else (.failed .writeError, none)

/-- The whole per table step over its own cells: the silver dataset of the
table (none when the file does not exist) and the processed set of the
table.  A dimension table (no year column) is skipped before any state or
store interaction. -/
def pt_core (ce : CoreEnv) (t : String) (silverT : Option Dataset)
    (processed : List Int) (init : Bool) : Outcome × Option (Dataset × List Int) :=
  if has_year_column t = false then (.skipped, none)
  else
    match prepare ce t with
    | .error e => (.failed e, none)
    | .ok p => pt_plan_merge ce t p silverT processed init

/-- The mutable world of a run: the collaborators plus the silver store. -/
structure Env where
  core : CoreEnv
  silver : List (String × Dataset)

/-- Overwrite the silver file of a table (replace or create). -/
def setSilver (s : List (String × Dataset)) (t : String) (df : Dataset) :
    List (String × Dataset) :=
  setAssoc s t df

/-- The outcome of one process_table_incremental call together with the
world and state it leaves behind. -/
structure PTResult where
  outcome : Outcome
  env : Env
  state : ProcState

/-- IncrementalProcessor.process_table_incremental: run the per table step on
the cells of the table; on the success path (and only there) the silver file
is overwritten wholesale and the planned years are committed to the state
store; every other path leaves both untouched. -/
def process_table_incremental (env : Env) (st : ProcState) (now : Int)
    (t : String) (init : Bool) : PTResult :=
  match pt_core env.core t (env.silver.lookup t) (get_processed_years st t) init with
  | (o, none) => ⟨o, env, st⟩
  | (o, some (dfF, ys)) =>
    ⟨o, ⟨env.core, setSilver env.silver t dfF⟩, mark_years_processed st t ys now⟩

/-- The loop body of process_all_incremental over an explicit table list,
threading the world and the state and collecting one outcome per table. -/
def run_tables (now : Int) (init : Bool) :
    Env → ProcState → List String → List Outcome × Env × ProcState
  | env, st, [] => ([], env, st)
  | env, st, t :: ts =>
    let r := process_table_incremental env st now t init
    let rest := run_tables now init r.env r.state ts
    (r.outcome :: rest.1, rest.2)

/-- IncrementalProcessor.process_all_incremental: process every fact table of
config.TABLES_WITH_YEAR in order, collecting one outcome per table. -/
def process_all_incremental (env : Env) (st : ProcState) (now : Int)
    (init : Bool) : List Outcome × Env × ProcState :=
  run_tables now init env st TABLES_WITH_YEAR

/-! ## The byte level behaviour of _save_state -/

/-- Serialize a year list as JSON. -/
def serializeYears (ys : List Int) : String :=
  "[" ++ String.intercalate ", " (ys.map toString) ++ "]"

/-- Serialize the state dict as the JSON text json.dump writes (rendered
without the indentation whitespace, which carries no information). -/
def serializeState (st : ProcState) : String :=
  "\x7b" ++
    String.intercalate ", "
      (st.map (fun p =>
        "\"" ++ p.1 ++ "\": \x7b\"processed_years\": " ++
          serializeYears p.2.processed_years ++ ", \"last_update\": " ++
          toString p.2.last_update ++ "\x7d")) ++
  "\x7d"

/-- IncrementalProcessor._save_state opens the state file with mode w, which
truncates it at once, and json.dump then writes the serialized text front to
back.  These are the file contents the next load can observe if the process
crashes at some point of the persist: every prefix of the new text (the
empty string being the content right after the truncation). -/
def save_state_crash_contents (st : ProcState) : List String :=
  (List.range ((serializeState st).length + 1)).map
    (fun n => ((serializeState st).toList.take n).asString)

/-! ## The per table step with nullable year values

The pipeline above types year lists as ints, which is exact for every table
whose rows all resolve to a year.  The source, however, lets a JSON null
travel: a row whose raceId has no match in races gets a null year, and when
every row of a table is in that situation, sorted(unique(year)) is the
singleton [null], the incremental planner selects [null], the year filter
drops all rows, the empty slice is transformed and written, and [null] is
committed to the state.  The definitions below translate lines 108 to 248
of process_table_incremental again with year values that may be null, and
are the model against which that behaviour is settled. -/

/-- A year value as the source handles it after the join: an int, or the
JSON null of an unmatched raceId (none). -/
abbrev YearVal := Option Int

/-- Python sorted over year values.  The callers below only sort lists that
are all ints or hold at most a lone null — a mixed list raises a TypeError
first, modelled as the nullYearCompare failures — and sorted is the
identity on a list of fewer than two elements, so the null branch returns
its argument unchanged. -/
def sortYearVals (l : List YearVal) : List YearVal :=
  if none ∈ l then l
  else ((l.filterMap id).insertionSort (· ≤ ·)).map some

/-- The distinct per row year values of the joined table, nulls kept
(unique() of the year column). -/
def yearValsOf (races df : Dataset) : List YearVal :=
  ((with_year races df).rows.map (fun r => r.lookup "year")).dedup

/-- sorted(unique(year)) of line 165, once its mixed null and int raise has
been ruled out. -/
def availableOf (races df : Dataset) : List YearVal :=
  sortYearVals (yearValsOf races df)

/-- The year filter of line 178 over possibly null keys: a null year never
matches the is_in list, so such rows are dropped from the processed slice. -/
def filter_year_vals (df : Dataset) (ys : List YearVal) : Dataset :=
  ⟨df.cols,
   df.rows.filter (fun r =>
     match r.lookup "year" with
     | some y => decide (some y ∈ ys)
     | none => false)⟩

/-- get_years_to_process over year values.  In the bootstrap branch the
comparison of a null with the cutoff raises a TypeError (the none match arm
of the filter is unreachable past that guard); the incremental branch is a
plain membership test and never raises. -/
def plan_year_vals (processed : List YearVal) (available : List YearVal)
    (is_initial_load : Bool) : Except PErr (List YearVal) :=
  if is_initial_load ∧ processed = [] then
    if none ∈ available then .error .nullYearCompare
    else
      .ok (sortYearVals (available.filter (fun y =>
        match y with
        | some v => decide (v ≤ INITIAL_LOAD_YEAR)
        | none => false)))
  else
    .ok (sortYearVals (available.filter (fun y => decide (y ∉ processed))))

/-- The per table outcome with a year value payload (years_processed can
carry the JSON null the source commits in the all rows unmatched case). -/
inductive OutcomeV where
  | skipped
  | upToDate
  | success (years_processed : List YearVal) (rows_processed : Nat)
      (total_rows : Nat)
  | failed (e : PErr)
deriving DecidableEq, Repr

/-- Lines 108 to 248 of process_table_incremental translated with nullable
year values, over the cells of one table (its silver dataset and its
processed list, which can hold a committed null).  It differs from pt_core
exactly where the source lets a null travel: sorted(unique(year)) keeps a
lone null, the bootstrap cutoff comparison raises on a null, the year
filter never matches a null row, a committed plan can be [null], and the
commit sort of mark_years_processed raises when the union mixes a null with
ints — that raise happens after write_parquet, so its failed outcome still
leaves the overwritten silver file behind while the state stays unchanged.
Returns the outcome, the written silver dataset when the write happened,
and the new processed list when the commit succeeded. -/
def pt_core_null (ce : CoreEnv) (t : String) (silverT : Option Dataset)
    (processed : List YearVal) (init : Bool) :
    OutcomeV × Option Dataset × Option (List YearVal) :=
  if has_year_column t = false then (.skipped, none, none)
  else
    match ce.bronze.lookup t with
    | none => (.failed .bronzeNotFound, none, none)
    | some df =>
      match ce.bronze.lookup "races" with
      | none => (.failed .racesReadError, none, none)
      | some races =>
        if "raceId" ∉ df.cols ∧ "year" ∉ df.cols then
          (.failed .noYearColumn, none, none)
        else if none ∈ yearValsOf races df ∧ 2 ≤ (yearValsOf races df).length then
          (.failed .nullYearCompare, none, none)
        else
          match plan_year_vals processed (availableOf races df) init with
          | .error e => (.failed e, none, none)
          | .ok ys =>
            if ys = [] then (.upToDate, none, none)
            else
              match ce.transform t (filter_year_vals (with_year races df) ys) with
              | .error _ => (.failed .transformError, none, none)
              | .ok dfT =>
                if ce.writeOk t then
                  if none ∈ ((processed ++ ys).dedup)
                      ∧ 2 ≤ ((processed ++ ys).dedup).length then
                    (.failed .nullYearCompare, some (pt_final silverT init dfT),
                     none)
                  else
                    (.success ys dfT.rows.length
                      (pt_final silverT init dfT).rows.length,
                     some (pt_final silverT init dfT),
                     some (sortYearVals ((processed ++ ys).dedup)))
                else (.failed .writeError, none, none)

/-! ## Concrete sample data used by the closed theorems below -/

/-- A results bronze table whose raceIds (77 and 78) have no match in the
races table: every row resolves to a null year. -/
def unmatchedResultsDS : Dataset :=
  ⟨["raceId", "pos"], [[("raceId", 77), ("pos", 1)], [("raceId", 78), ("pos", 2)]]⟩

/-- A two race bronze races table (years 2005 and 2012). -/
def racesDS : Dataset :=
  ⟨["raceId", "year"],
   [[("raceId", 1), ("year", 2005)], [("raceId", 2), ("year", 2012)]]⟩

/-- A small qualifying bronze table referring to race 1. -/
def qualDS : Dataset := ⟨["raceId", "q"], [[("raceId", 1), ("q", 7)]]⟩

/-- The collaborators for the unmatched raceId scenario: the results rows
all point at races absent from racesDS, and writes succeed. -/
def ceAllUnmatched : CoreEnv :=
  ⟨[("results", unmatchedResultsDS), ("races", racesDS)],
   fun _ d => .ok d, fun _ => true⟩

/-- A world whose durable silver writes all fail (write fault injection). -/
def envWriteFail : Env :=
  ⟨⟨[("races", racesDS)], fun _ d => .ok d, fun _ => false⟩, []⟩

/-- The prepared form of the races table over racesDS (the own year column
is kept and the joined one is suffixed). -/
def preparedRaces : Prepared :=
  ⟨⟨["raceId", "year", "year_right"],
    [[("raceId", 1), ("year", 2005), ("year_right", 2005)],
     [("raceId", 2), ("year", 2012), ("year_right", 2012)]]⟩,
   [2005, 2012], false⟩

/-- A world where the results bronze file is missing while races and
qualifying are present and all writes succeed. -/
def envMissingResults : Env :=
  ⟨⟨[("races", racesDS), ("qualifying", qualDS)], fun _ d => .ok d,
    fun _ => true⟩, []⟩

/-- A world for the bootstrap-with-state scenario: races bronze present, a
previously merged silver races file with one old row, writes succeed. -/
def envBootState : Env :=
  ⟨⟨[("races", racesDS)], fun _ d => .ok d, fun _ => true⟩,
   [("races", ⟨["raceId", "year"], [[("raceId", 9), ("year", 1999)]]⟩)]⟩

/-- A state in which the races table already has 2005 processed. -/
def stRaces2005 : ProcState := [("races", ⟨[2005], 0⟩)]

/-- A world whose results bronze table has neither a raceId nor a year
column. -/
def envNoYear : Env :=
  ⟨⟨[("results", ⟨["resultId"], [[("resultId", 5)]]⟩), ("races", racesDS)],
    fun _ d => .ok d, fun _ => true⟩, []⟩

/-- The spec example schemas: an existing merged dataset with columns
A, B, D and incoming transformed data with columns A, B, C. -/
def dfABD : Dataset := ⟨["A", "B", "D"], [[("A", 1), ("B", 2), ("D", 3)]]⟩

/-- The incoming side of the spec example. -/
def dfABC : Dataset := ⟨["A", "B", "C"], [[("A", 4), ("B", 5), ("C", 6)]]⟩

/-! ## Helper lemmas about the state and store dictionaries -/

theorem lookup_map_set {β : Type} (t : String) (v : β) :
    ∀ (s : List (String × β)),
      (s.map (fun p => if p.1 = t then (t, v) else p)).lookup t
        = if (s.lookup t).isSome then some v else none := by
  intro s
  induction s with
  | nil => rfl
  | cons p s ih =>
    obtain ⟨k, b⟩ := p
    by_cases hk : k = t
    · subst hk
      rw [List.map_cons, if_pos (show (k, b).1 = k from rfl)]
      have hb : (k == k) = true := beq_self_eq_true k
      simp only [List.lookup, hb, Option.isSome_some, if_true]
    · rw [List.map_cons, if_neg (show ¬(k, b).1 = t from hk)]
      have hb : (t == k) = false := beq_eq_false_iff_ne.mpr (Ne.symm hk)
      simp only [List.lookup, hb, ih]

theorem lookup_append_single {β : Type} (t : String) (v : β) :
    ∀ (s : List (String × β)), s.lookup t = none →
      (s ++ [(t, v)]).lookup t = some v := by
  intro s
  induction s with
  | nil =>
    intro _
    have hb : (t == t) = true := beq_self_eq_true t
    simp only [List.nil_append, List.lookup, hb]
  | cons p s ih =>
    obtain ⟨k, b⟩ := p
    intro h
    by_cases hk : t = k
    · subst hk
      have hb : (t == t) = true := beq_self_eq_true t
      simp only [List.lookup, hb] at h
      exact absurd h (by simp)
    · have hb : (t == k) = false := beq_eq_false_iff_ne.mpr hk
      simp only [List.lookup, hb] at h
      simp only [List.cons_append, List.lookup, hb]
      exact ih h

theorem lookup_setAssoc_self {β : Type} (s : List (String × β)) (t : String)
    (v : β) : (setAssoc s t v).lookup t = some v := by
  unfold setAssoc
  split
  · rename_i h
    rw [lookup_map_set, if_pos h]
  · rename_i h
    apply lookup_append_single
    cases h' : s.lookup t with
    | none => rfl
    | some w => rw [h'] at h; simp at h

theorem lookup_map_set_ne {β : Type} (t u : String) (v : β) (h : u ≠ t) :
    ∀ (s : List (String × β)),
      (s.map (fun p => if p.1 = t then (t, v) else p)).lookup u = s.lookup u := by
  intro s
  induction s with
  | nil => rfl
  | cons p s ih =>
    obtain ⟨k, b⟩ := p
    by_cases hk : k = t
    · subst hk
      rw [List.map_cons, if_pos (show (k, b).1 = k from rfl)]
      have hb : (u == k) = false := beq_eq_false_iff_ne.mpr h
      simp only [List.lookup, hb, ih]
    · rw [List.map_cons, if_neg (show ¬(k, b).1 = t from hk)]
      rcases hbk : (u == k) with _ | _
      · simp only [List.lookup, hbk, ih]
      · simp only [List.lookup, hbk]

theorem lookup_append_single_ne {β : Type} (t u : String) (v : β)
    (h : u ≠ t) : ∀ (s : List (String × β)),
      (s ++ [(t, v)]).lookup u = s.lookup u := by
  intro s
  have hb : (u == t) = false := beq_eq_false_iff_ne.mpr h
  induction s with
  | nil => simp only [List.nil_append, List.lookup, hb]
  | cons p s ih =>
    obtain ⟨k, b⟩ := p
    rcases hbk : (u == k) with _ | _
    · simp only [List.cons_append, List.lookup, hbk]
      exact ih
    · simp only [List.cons_append, List.lookup, hbk]

theorem lookup_setAssoc_ne {β : Type} (s : List (String × β)) (t u : String)
    (v : β) (h : u ≠ t) : (setAssoc s t v).lookup u = s.lookup u := by
  unfold setAssoc
  split
  · exact lookup_map_set_ne t u v h s
  · exact lookup_append_single_ne t u v h s

theorem get_processed_mark_self (st : ProcState) (t : String) (ys : List Int)
    (now : Int) :
    get_processed_years (mark_years_processed st t ys now) t
      = union_sorted (get_processed_years st t) ys := by
  unfold mark_years_processed setTableState get_processed_years
  rw [lookup_setAssoc_self]

theorem get_processed_mark_ne (st : ProcState) (t u : String) (ys : List Int)
    (now : Int) (h : u ≠ t) :
    get_processed_years (mark_years_processed st t ys now) u
      = get_processed_years st u := by
  unfold mark_years_processed setTableState get_processed_years
  rw [lookup_setAssoc_ne _ _ _ _ h]

theorem mem_union_sorted (x : Int) (a b : List Int) :
    x ∈ union_sorted a b ↔ x ∈ a ∨ x ∈ b := by
  unfold union_sorted
  rw [List.mem_insertionSort, List.mem_dedup, List.mem_append]

/-! ## Helper lemmas about the per table step -/

theorem pt_of_core_none (env : Env) (st : ProcState) (now : Int) (t : String)
    (init : Bool) (o : Outcome)
    (h : pt_core env.core t (env.silver.lookup t) (get_processed_years st t) init
          = (o, none)) :
    process_table_incremental env st now t init = ⟨o, env, st⟩ := by
  unfold process_table_incremental
  rw [h]

theorem pt_of_core_some (env : Env) (st : ProcState) (now : Int) (t : String)
    (init : Bool) (o : Outcome) (dfF : Dataset) (ys : List Int)
    (h : pt_core env.core t (env.silver.lookup t) (get_processed_years st t) init
          = (o, some (dfF, ys))) :
    process_table_incremental env st now t init
      = ⟨o, ⟨env.core, setSilver env.silver t dfF⟩, mark_years_processed st t ys now⟩ := by
  unfold process_table_incremental
  rw [h]

theorem pt_env_core (env : Env) (st : ProcState) (now : Int) (t : String)
    (init : Bool) :
    (process_table_incremental env st now t init).env.core = env.core := by
  unfold process_table_incremental
  split <;> rfl

theorem pt_frame (env : Env) (st : ProcState) (now : Int) (t : String)
    (init : Bool) (u : String) (hu : u ≠ t) :
    (process_table_incremental env st now t init).env.silver.lookup u
        = env.silver.lookup u
    ∧ get_processed_years (process_table_incremental env st now t init).state u
        = get_processed_years st u := by
  unfold process_table_incremental
  split
  · exact ⟨rfl, rfl⟩
  · exact ⟨lookup_setAssoc_ne _ _ _ _ hu, get_processed_mark_ne _ _ _ _ _ hu⟩

theorem pt_core_shape (ce : CoreEnv) (t : String) (sv : Option Dataset)
    (pr : List Int) (init : Bool) :
    (∃ o, pt_core ce t sv pr init = (o, none)
        ∧ ∀ ys rp tr, o ≠ Outcome.success ys rp tr)
    ∨ (∃ ys rp tr dfF,
        pt_core ce t sv pr init = (Outcome.success ys rp tr, some (dfF, ys))) := by
  unfold pt_core
  split
  · exact Or.inl ⟨Outcome.skipped, rfl, fun ys rp tr h => by cases h⟩
  · split
    · rename_i e heq
      exact Or.inl ⟨Outcome.failed e, rfl, fun ys rp tr h => by cases h⟩
    · rename_i p heq
      unfold pt_plan_merge
      split
      · exact Or.inl ⟨Outcome.failed PErr.nullYearCompare, rfl,
          fun ys rp tr h => by cases h⟩
      · split
        · exact Or.inl ⟨Outcome.upToDate, rfl, fun ys rp tr h => by cases h⟩
        · split
          · exact Or.inl ⟨Outcome.failed PErr.transformError, rfl,
              fun ys rp tr h => by cases h⟩
          · split
            · exact Or.inr ⟨_, _, _, _, rfl⟩
            · exact Or.inl ⟨Outcome.failed PErr.writeError, rfl,
                fun ys rp tr h => by cases h⟩

theorem plan_years_incr_mem (pr av : List Int) (y : Int)
    (hy : y ∈ av) (hn : y ∉ pr) : y ∈ plan_years pr av false := by
  unfold plan_years
  rw [List.mem_insertionSort, if_neg (by simp)]
  exact List.mem_filter.mpr ⟨hy, by simpa using hn⟩

theorem pt_plan_merge_after_success (ce : CoreEnv) (t : String) (p : Prepared)
    (sv : Option Dataset) (pr ys : List Int) (rp tr : Nat) (dfF : Dataset)
    (h : pt_plan_merge ce t p sv pr false
          = (Outcome.success ys rp tr, some (dfF, ys))) :
    pt_plan_merge ce t p (some dfF) (union_sorted pr ys) false
      = (Outcome.upToDate, none) := by
  unfold pt_plan_merge at h ⊢
  rw [if_neg (by simp)] at h
  rw [if_neg (by simp)]
  by_cases h0 : plan_years pr p.available false = []
  · rw [if_pos h0] at h
    simp at h
  · rw [if_neg h0] at h
    split at h
    · simp at h
    · rename_i dfT htr
      by_cases hw : ce.writeOk t = true
      · rw [if_pos hw] at h
        have hfst := congrArg Prod.fst h
        simp only [Outcome.success.injEq] at hfst
        have hys_eq : plan_years pr p.available false = ys := hfst.1
        have hplan2 : plan_years (union_sorted pr ys) p.available false = [] := by
          unfold plan_years
          rw [if_neg (by simp)]
          have hfil : p.available.filter
              (fun y => decide (y ∉ union_sorted pr ys)) = [] := by
            apply List.filter_eq_nil_iff.mpr
            intro a ha
            simp only [decide_eq_true_eq, Decidable.not_not]
            rw [mem_union_sorted]
            by_cases hpr : a ∈ pr
            · exact Or.inl hpr
            · right
              rw [← hys_eq]
              exact plan_years_incr_mem pr p.available a ha hpr
          rw [hfil]
          rfl
        rw [if_pos hplan2]
      · rw [if_neg hw] at h
        simp at h

theorem pt_core_after_success (ce : CoreEnv) (t : String) (sv : Option Dataset)
    (pr ys : List Int) (rp tr : Nat) (dfF : Dataset)
    (h : pt_core ce t sv pr false = (Outcome.success ys rp tr, some (dfF, ys))) :
    pt_core ce t (some dfF) (union_sorted pr ys) false
      = (Outcome.upToDate, none) := by
  unfold pt_core at h ⊢
  by_cases hy : has_year_column t = false
  · rw [if_pos hy] at h
    simp at h
  · rw [if_neg hy] at h ⊢
    cases hp : prepare ce t with
    | error e =>
      rw [hp] at h
      simp at h
    | ok p =>
      rw [hp] at h
      exact pt_plan_merge_after_success ce t p sv pr ys rp tr dfF h

/-! ## Helper lemmas about the run loop -/

theorem rerunOutcome_eq_of_not_success (o : Outcome)
    (h : ∀ ys rp tr, o ≠ Outcome.success ys rp tr) : rerunOutcome o = o := by
  cases o <;> first | rfl | exact absurd rfl (h _ _ _)

theorem pt_outcome_congr (env env2 : Env) (st st2 : ProcState) (now now2 : Int)
    (t : String) (init : Bool)
    (hcore : env2.core = env.core)
    (hsil : env2.silver.lookup t = env.silver.lookup t)
    (hst : get_processed_years st2 t = get_processed_years st t) :
    (process_table_incremental env2 st2 now2 t init).outcome
      = (process_table_incremental env st now t init).outcome := by
  unfold process_table_incremental
  rw [hcore, hsil, hst]
  cases hx : pt_core env.core t (env.silver.lookup t) (get_processed_years st t) init with
  | mk o w =>
    cases w with
    | none => rfl
    | some pr =>
      obtain ⟨dfF, ys⟩ := pr
      rfl

theorem run_tables_core (now : Int) (init : Bool) :
    ∀ (ts : List String) (env : Env) (st : ProcState),
      (run_tables now init env st ts).2.1.core = env.core := by
  intro ts
  induction ts with
  | nil => intro env st; rfl
  | cons t ts ih =>
    intro env st
    simp only [run_tables]
    rw [ih]
    exact pt_env_core env st now t init

theorem run_tables_frame (now : Int) (init : Bool) :
    ∀ (ts : List String) (env : Env) (st : ProcState) (u : String), u ∉ ts →
      (run_tables now init env st ts).2.1.silver.lookup u = env.silver.lookup u
      ∧ get_processed_years (run_tables now init env st ts).2.2 u
          = get_processed_years st u := by
  intro ts
  induction ts with
  | nil => intro env st u _; exact ⟨rfl, rfl⟩
  | cons t ts ih =>
    intro env st u hu
    have hut : u ≠ t := fun h => hu (h ▸ List.mem_cons_self t ts)
    have huts : u ∉ ts := fun h => hu (List.mem_cons_of_mem t h)
    simp only [run_tables]
    constructor
    · rw [(ih _ _ u huts).1]
      exact (pt_frame env st now t init u hut).1
    · rw [(ih _ _ u huts).2]
      exact (pt_frame env st now t init u hut).2

theorem run_tables_outcomes (now now2 : Int) (init : Bool) :
    ∀ (ts : List String), ts.Nodup →
    ∀ (env env2 : Env) (st st2 : ProcState),
      env2.core = env.core →
      (∀ u ∈ ts, env2.silver.lookup u = env.silver.lookup u
          ∧ get_processed_years st2 u = get_processed_years st u) →
      (run_tables now2 init env2 st2 ts).1
        = ts.map (fun u => (process_table_incremental env st now u init).outcome) := by
  intro ts
  induction ts with
  | nil => intro _ env env2 st st2 _ _; rfl
  | cons t ts ih =>
    intro hnd env env2 st st2 hcore hcells
    obtain ⟨htn, hnd2⟩ := List.nodup_cons.mp hnd
    simp only [run_tables, List.map_cons]
    have hhead : (process_table_incremental env2 st2 now2 t init).outcome
        = (process_table_incremental env st now t init).outcome :=
      pt_outcome_congr env env2 st st2 now now2 t init hcore
        (hcells t (List.mem_cons_self t ts)).1
        (hcells t (List.mem_cons_self t ts)).2
    have hcells2 : ∀ u ∈ ts,
        (process_table_incremental env2 st2 now2 t init).env.silver.lookup u
            = env.silver.lookup u
        ∧ get_processed_years (process_table_incremental env2 st2 now2 t init).state u
            = get_processed_years st u := by
      intro u hu
      have hut : u ≠ t := fun he => htn (he ▸ hu)
      constructor
      · rw [(pt_frame env2 st2 now2 t init u hut).1]
        exact (hcells u (List.mem_cons_of_mem t hu)).1
      · rw [(pt_frame env2 st2 now2 t init u hut).2]
        exact (hcells u (List.mem_cons_of_mem t hu)).2
    have hcore2 : (process_table_incremental env2 st2 now2 t init).env.core
        = env.core := by
      rw [pt_env_core]
      exact hcore
    rw [hhead, ih hnd2 env (process_table_incremental env2 st2 now2 t init).env
      st (process_table_incremental env2 st2 now2 t init).state hcore2 hcells2]

theorem pt_second_run (env env2 : Env) (st st2 : ProcState) (now now2 : Int)
    (t : String)
    (hcore : env2.core = env.core)
    (hsil : env2.silver.lookup t
      = (process_table_incremental env st now t false).env.silver.lookup t)
    (hst : get_processed_years st2 t
      = get_processed_years (process_table_incremental env st now t false).state t) :
    process_table_incremental env2 st2 now2 t false
      = ⟨rerunOutcome (process_table_incremental env st now t false).outcome,
         env2, st2⟩ := by
  rcases pt_core_shape env.core t (env.silver.lookup t)
      (get_processed_years st t) false with
    ⟨o, hY, hns⟩ | ⟨ys, rp, tr, dfF, hY⟩
  · have hr1 : process_table_incremental env st now t false = ⟨o, env, st⟩ :=
      pt_of_core_none env st now t false o hY
    rw [hr1] at hsil hst
    have h2 : pt_core env2.core t (env2.silver.lookup t)
        (get_processed_years st2 t) false = (o, none) := by
      rw [hcore, hsil, hst]
      exact hY
    rw [pt_of_core_none env2 st2 now2 t false o h2, hr1,
      rerunOutcome_eq_of_not_success o hns]
  · have hr1 := pt_of_core_some env st now t false _ dfF ys hY
    rw [hr1] at hsil hst
    have hsil2 : env2.silver.lookup t = some dfF := by
      rw [hsil]
      exact lookup_setAssoc_self _ _ _
    have hst2 : get_processed_years st2 t
        = union_sorted (get_processed_years st t) ys := by
      rw [hst]
      exact get_processed_mark_self _ _ _ _
    have h2 : pt_core env2.core t (env2.silver.lookup t)
        (get_processed_years st2 t) false = (Outcome.upToDate, none) := by
      rw [hcore, hsil2, hst2]
      exact pt_core_after_success env.core t (env.silver.lookup t) _ ys rp tr dfF hY
    rw [pt_of_core_none env2 st2 now2 t false _ h2, hr1]
    rfl

theorem run_tables_second (now now2 : Int) :
    ∀ (ts : List String), ts.Nodup → ∀ (env env2 : Env) (st st2 : ProcState),
      env2.core = env.core →
      (∀ u ∈ ts,
        env2.silver.lookup u
            = (run_tables now false env st ts).2.1.silver.lookup u
        ∧ get_processed_years st2 u
            = get_processed_years (run_tables now false env st ts).2.2 u) →
      run_tables now2 false env2 st2 ts
        = ((run_tables now false env st ts).1.map rerunOutcome, env2, st2) := by
  intro ts
  induction ts with
  | nil => intro _ env env2 st st2 _ _; rfl
  | cons t ts ih =>
    intro hnd env env2 st st2 hcore hcells
    obtain ⟨htn, hnd2⟩ := List.nodup_cons.mp hnd
    have hstep : run_tables now false env st (t :: ts)
        = ((process_table_incremental env st now t false).outcome ::
             (run_tables now false (process_table_incremental env st now t false).env
                (process_table_incremental env st now t false).state ts).1,
           (run_tables now false (process_table_incremental env st now t false).env
              (process_table_incremental env st now t false).state ts).2) := rfl
    rw [hstep] at hcells ⊢
    have hsil_t : env2.silver.lookup t
        = (process_table_incremental env st now t false).env.silver.lookup t := by
      have h1 := (hcells t (List.mem_cons_self t ts)).1
      rw [h1]
      exact (run_tables_frame now false ts
        (process_table_incremental env st now t false).env
        (process_table_incremental env st now t false).state t htn).1
    have hst_t : get_processed_years st2 t
        = get_processed_years (process_table_incremental env st now t false).state t := by
      have h2 := (hcells t (List.mem_cons_self t ts)).2
      rw [h2]
      exact (run_tables_frame now false ts
        (process_table_incremental env st now t false).env
        (process_table_incremental env st now t false).state t htn).2
    have hr2h := pt_second_run env env2 st st2 now now2 t hcore hsil_t hst_t
    have hcore2 : env2.core
        = (process_table_incremental env st now t false).env.core := by
      rw [pt_env_core]
      exact hcore
    have hcells2 : ∀ u ∈ ts,
        env2.silver.lookup u
            = (run_tables now false (process_table_incremental env st now t false).env
                (process_table_incremental env st now t false).state ts).2.1.silver.lookup u
        ∧ get_processed_years st2 u
            = get_processed_years
                (run_tables now false (process_table_incremental env st now t false).env
                  (process_table_incremental env st now t false).state ts).2.2 u :=
      fun u hu => hcells u (List.mem_cons_of_mem t hu)
    have htail := ih hnd2 (process_table_incremental env st now t false).env env2
      (process_table_incremental env st now t false).state st2 hcore2 hcells2
    have hstep2 : run_tables now2 false env2 st2 (t :: ts)
        = ((process_table_incremental env2 st2 now2 t false).outcome ::
             (run_tables now2 false (process_table_incremental env2 st2 now2 t false).env
                (process_table_incremental env2 st2 now2 t false).state ts).1,
           (run_tables now2 false (process_table_incremental env2 st2 now2 t false).env
              (process_table_incremental env2 st2 now2 t false).state ts).2) := rfl
    rw [hstep2, hr2h]
    dsimp only
    rw [htail, List.map_cons]

theorem run_tables_length (now : Int) (init : Bool) :
    ∀ (ts : List String) (env : Env) (st : ProcState),
      (run_tables now init env st ts).1.length = ts.length := by
  intro ts
  induction ts with
  | nil => intro env st; rfl
  | cons t ts ih =>
    intro env st
    simp only [run_tables, List.length_cons, ih]

/-! ## The claims -/

/-- C1: for a fact table whose durable silver write raises, the call returns
the failed write outcome and leaves the world and the state store exactly as
they were — the commit is never reached, the processed set of the table is
unchanged — and replanning over the resulting state yields exactly the same
partitions again. -/
theorem write_failure_preserves_state (env : Env) (st : ProcState) (now : Int)
    (t : String) (init : Bool) (p : Prepared) (dfT : Dataset)
    (h1 : has_year_column t = true)
    (h2 : prepare env.core t = .ok p)
    (h3 : ¬ (p.hasNull ∧ init ∧ get_processed_years st t = []))
    (h4 : plan_years (get_processed_years st t) p.available init ≠ [])
    (h5 : env.core.transform t (filter_years p.dfY
            (plan_years (get_processed_years st t) p.available init)) = .ok dfT)
    (h6 : env.core.writeOk t = false) :
    process_table_incremental env st now t init
        = ⟨Outcome.failed PErr.writeError, env, st⟩
    ∧ get_years_to_process
          (process_table_incremental env st now t init).state t p.available init
        = get_years_to_process st t p.available init := by
  have hcore : pt_core env.core t (env.silver.lookup t)
      (get_processed_years st t) init = (Outcome.failed PErr.writeError, none) := by
    unfold pt_core pt_plan_merge
    rw [if_neg (by simp [h1])]
    simp only [h2]
    rw [if_neg h3, if_neg h4]
    simp only [h5]
    rw [if_neg (by simp [h6])]
  constructor
  · exact pt_of_core_none env st now t init _ hcore
  · rw [pt_of_core_none env st now t init _ hcore]

/-- C1 witness: a concrete world whose write fails; the races table plans
[2005, 2012], reaches the write, fails, and the empty state survives. -/
theorem write_failure_preserves_state_witness :
    process_table_incremental envWriteFail [] 0 "races" false
        = ⟨Outcome.failed PErr.writeError, envWriteFail, []⟩
    ∧ get_years_to_process
          (process_table_incremental envWriteFail [] 0 "races" false).state
          "races" preparedRaces.available false
        = get_years_to_process [] "races" preparedRaces.available false :=
  write_failure_preserves_state envWriteFail [] 0 "races" false preparedRaces
    ⟨["raceId", "year", "year_right"],
     [[("raceId", 1), ("year", 2005), ("year_right", 2005)],
      [("raceId", 2), ("year", 2012), ("year_right", 2012)]]⟩
    (by decide) (by rfl) (by decide) (by decide) (by rfl) (by rfl)

/-- C2 counterexample: the code bootstraps only when bootstrap is requested
AND nothing is processed.  With processed = {2005} and an explicit bootstrap
request over {2005, 2008, 2012, 2015} the claim predicts the cutoff
selection [2005, 2008]; the planner returns [2008, 2012, 2015].  With
nothing processed and no explicit request over {2005, 2012} the claim
predicts [2005]; the planner returns [2005, 2012]. -/
theorem planner_bootstrap_or_counterexample :
    get_years_to_process [("results", ⟨[2005], 0⟩)] "results"
        [2005, 2008, 2012, 2015] true = [2008, 2012, 2015]
    ∧ ([2008, 2012, 2015] : List Int) ≠ [2005, 2008]
    ∧ get_years_to_process [] "results" [2005, 2012] false = [2005, 2012]
    ∧ ([2005, 2012] : List Int) ≠ [2005] :=
  ⟨by decide, by decide, by decide, by decide⟩

/-- C2 amended: the planner runs in bootstrap mode (cutoff selection) only
when bootstrap is explicitly requested AND the processed set of the table is
empty; in every other case — including an explicit bootstrap request with a
non empty processed set, and an empty processed set without the request — it
plans incrementally (available minus processed, sorted ascending). -/
theorem planner_mode_amended (st : ProcState) (t : String) (av : List Int)
    (init : Bool) :
    (init = true → get_processed_years st t = [] →
      get_years_to_process st t av init
        = (av.filter (fun y => decide (y ≤ INITIAL_LOAD_YEAR))).insertionSort (· ≤ ·))
    ∧ ((init = false ∨ get_processed_years st t ≠ []) →
      get_years_to_process st t av init
        = (av.filter
            (fun y => decide (y ∉ get_processed_years st t))).insertionSort (· ≤ ·)) := by
  constructor
  · intro hinit hpr
    unfold get_years_to_process plan_years
    rw [if_pos ⟨by simp [hinit], hpr⟩]
  · intro hcase
    unfold get_years_to_process plan_years
    rcases hcase with hinit | hpr
    · rw [if_neg (by simp [hinit])]
    · rw [if_neg (fun hc => hpr hc.2)]

/-- C2 amended witness: both modes at concrete inputs. -/
theorem planner_mode_amended_witness :
    get_years_to_process [] "results" [2005, 2008, 2012, 2015] true
        = [2005, 2008]
    ∧ get_years_to_process [("results", ⟨[2005], 0⟩)] "results"
        [2005, 2008, 2012, 2015] true = [2008, 2012, 2015] :=
  ⟨((planner_mode_amended [] "results" [2005, 2008, 2012, 2015] true).1
      rfl (by decide)).trans (by decide),
   ((planner_mode_amended [("results", ⟨[2005], 0⟩)] "results"
      [2005, 2008, 2012, 2015] true).2 (Or.inr (by decide))).trans (by decide)⟩

/-- C3: the persist of the state store is a plain truncate and rewrite, not
an atomic replace: while _save_state is writing the new state, a crash can
leave the file holding the empty string (right after the open with mode w
truncated it), which is the serialization of neither the previous state nor
the new one, so the next load sees a truncated record rather than one of the
two complete states. -/
theorem save_state_not_atomic :
    "" ∈ save_state_crash_contents
        (mark_years_processed [("results", ⟨[2009], 1⟩)] "results" [2011] 2)
    ∧ "" ≠ serializeState [("results", ⟨[2009], 1⟩)]
    ∧ "" ≠ serializeState
        (mark_years_processed [("results", ⟨[2009], 1⟩)] "results" [2011] 2) := by
  refine ⟨?_, by decide, by decide⟩
  unfold save_state_crash_contents
  exact List.mem_map.mpr ⟨0, List.mem_range.mpr (Nat.succ_pos _), rfl⟩

/-- C4: running the incremental entry point twice in succession over the
same bronze data: the second run returns the first outcome list with every
success turned into up_to_date and leaves both the merged store and the
state store exactly as the first run left them; in particular every table
that succeeded on the first run reports up_to_date on the second. -/
theorem incremental_run_idempotent (env : Env) (st : ProcState)
    (now now2 : Int) :
    process_all_incremental
        (process_all_incremental env st now false).2.1
        (process_all_incremental env st now false).2.2 now2 false
      = ((process_all_incremental env st now false).1.map rerunOutcome,
         (process_all_incremental env st now false).2.1,
         (process_all_incremental env st now false).2.2)
    ∧ ∀ (i : Nat) (ys : List Int) (rp tr : Nat),
        (process_all_incremental env st now false).1[i]?
            = some (Outcome.success ys rp tr) →
        (process_all_incremental
            (process_all_incremental env st now false).2.1
            (process_all_incremental env st now false).2.2 now2 false).1[i]?
          = some Outcome.upToDate := by
  have hmain := run_tables_second now now2 TABLES_WITH_YEAR (by decide)
    env (run_tables now false env st TABLES_WITH_YEAR).2.1
    st (run_tables now false env st TABLES_WITH_YEAR).2.2
    (run_tables_core now false TABLES_WITH_YEAR env st)
    (fun u _ => ⟨rfl, rfl⟩)
  constructor
  · exact hmain
  · intro i ys rp tr hi
    have h1 : (process_all_incremental
        (process_all_incremental env st now false).2.1
        (process_all_incremental env st now false).2.2 now2 false).1
        = (process_all_incremental env st now false).1.map rerunOutcome :=
      congrArg Prod.fst hmain
    rw [h1, List.getElem?_map, hi]
    rfl

/-- C5 counterexample: with the results bronze file missing, the run does
not abort: results (position 1 of the table list) gets a per table failed
outcome carrying bronze_file_not_found, qualifying (position 2, after it)
still completes with success, and all nine fact tables get an outcome. -/
theorem missing_bronze_counterexample :
    (process_all_incremental envMissingResults [] 0 false).1[1]?
        = some (Outcome.failed PErr.bronzeNotFound)
    ∧ (process_all_incremental envMissingResults [] 0 false).1[2]?
        = some (Outcome.success [2005] 1 1)
    ∧ (process_all_incremental envMissingResults [] 0 false).1.length = 9 :=
  ⟨by decide, by decide, by decide⟩

/-- C5 amended: a missing bronze source file for a fact table is not fatal
and is not escalated: the table itself reports a failed outcome with the
bronze_file_not_found error while the world and the state are untouched, and
the run always yields one outcome per fact table. -/
theorem missing_bronze_amended (env : Env) (st : ProcState) (now : Int)
    (t : String) (init : Bool)
    (h1 : has_year_column t = true)
    (h2 : env.core.bronze.lookup t = none) :
    process_table_incremental env st now t init
        = ⟨Outcome.failed PErr.bronzeNotFound, env, st⟩
    ∧ ∀ (envA : Env) (stA : ProcState),
        (process_all_incremental envA stA now init).1.length
          = TABLES_WITH_YEAR.length := by
  constructor
  · apply pt_of_core_none
    unfold pt_core prepare
    rw [if_neg (by simp [h1])]
    simp only [h2]
  · intro envA stA
    exact run_tables_length now init TABLES_WITH_YEAR envA stA

/-- C5 amended witness: the missing results bronze file at the concrete
world. -/
theorem missing_bronze_amended_witness :
    process_table_incremental envMissingResults [] 0 "results" false
        = ⟨Outcome.failed PErr.bronzeNotFound, envMissingResults, []⟩ :=
  (missing_bronze_amended envMissingResults [] 0 "results" false
    (by decide) (by rfl)).1

/-- C6: in incremental mode — no bootstrap request, or a non empty processed
set — the planner returns exactly the set difference available minus
processed (membership independent of the cutoff), sorted ascending and with
no duplicates. -/
theorem incremental_plan_exact (st : ProcState) (t : String) (av : List Int)
    (init : Bool)
    (hmode : init = false ∨ get_processed_years st t ≠ [])
    (hnd : av.Nodup) :
    (∀ y, y ∈ get_years_to_process st t av init
        ↔ (y ∈ av ∧ y ∉ get_processed_years st t))
    ∧ List.Sorted (· ≤ ·) (get_years_to_process st t av init)
    ∧ (get_years_to_process st t av init).Nodup := by
  have hbranch : get_years_to_process st t av init
      = (av.filter
          (fun y => decide (y ∉ get_processed_years st t))).insertionSort (· ≤ ·) := by
    unfold get_years_to_process plan_years
    rcases hmode with h | h
    · rw [if_neg (by simp [h])]
    · rw [if_neg (fun hc => h hc.2)]
  refine ⟨?_, ?_, ?_⟩
  · intro y
    rw [hbranch, List.mem_insertionSort, List.mem_filter]
    simp
  · rw [hbranch]
    exact List.sorted_insertionSort (· ≤ ·) _
  · rw [hbranch]
    exact (List.perm_insertionSort (· ≤ ·) _).nodup_iff.mpr (hnd.filter _)

/-- C6 witness: the planner at a concrete state and availability, 2012 being
above the cutoff and still selected. -/
theorem incremental_plan_exact_witness :
    (2012 ∈ get_years_to_process [("results", ⟨[2005], 0⟩)] "results"
        [2012, 2005, 2008] false
      ↔ (2012 ∈ ([2012, 2005, 2008] : List Int)
          ∧ 2012 ∉ get_processed_years [("results", ⟨[2005], 0⟩)] "results"))
    ∧ (get_years_to_process [("results", ⟨[2005], 0⟩)] "results"
        [2012, 2005, 2008] false).Nodup :=
  ⟨(incremental_plan_exact [("results", ⟨[2005], 0⟩)] "results"
      [2012, 2005, 2008] false (Or.inl rfl) (by decide)).1 2012,
   (incremental_plan_exact [("results", ⟨[2005], 0⟩)] "results"
      [2012, 2005, 2008] false (Or.inl rfl) (by decide)).2.2⟩

/-- C7: when the column sets of the existing merged dataset and the incoming
transformed data differ, the merge projects both sides to the sorted common
column list and concatenates exactly those projected rows (existing first),
and the drift warning names exactly the columns present on only one side; no
column is invented, cast or filled. -/
theorem schema_reconcile_narrows (dfE dfT : Dataset)
    (h : colsSetEq dfE.cols dfT.cols = false) :
    (merge_step dfE dfT).cols
        = sortedCols ((dfE.cols.filter (fun c => decide (c ∈ dfT.cols))).dedup)
    ∧ (∀ c, c ∈ (merge_step dfE dfT).cols ↔ (c ∈ dfE.cols ∧ c ∈ dfT.cols))
    ∧ (merge_step dfE dfT).rows
        = (selectCols dfE (sortedCols
              ((dfE.cols.filter (fun c => decide (c ∈ dfT.cols))).dedup))).rows
          ++ (selectCols dfT (sortedCols
              ((dfE.cols.filter (fun c => decide (c ∈ dfT.cols))).dedup))).rows
    ∧ (reconcile_schemas dfE dfT).2
        = some ((dfE.cols.filter (fun c => decide (c ∉ dfT.cols))).dedup,
                (dfT.cols.filter (fun c => decide (c ∉ dfE.cols))).dedup)
    ∧ (∀ c, c ∈ (dfE.cols.filter (fun c => decide (c ∉ dfT.cols))).dedup
          ↔ (c ∈ dfE.cols ∧ c ∉ dfT.cols))
    ∧ (∀ c, c ∈ (dfT.cols.filter (fun c => decide (c ∉ dfE.cols))).dedup
          ↔ (c ∈ dfT.cols ∧ c ∉ dfE.cols)) := by
  have hrec : reconcile_schemas dfE dfT
      = ((selectCols dfE (sortedCols
            ((dfE.cols.filter (fun c => decide (c ∈ dfT.cols))).dedup)),
          selectCols dfT (sortedCols
            ((dfE.cols.filter (fun c => decide (c ∈ dfT.cols))).dedup))),
         some ((dfE.cols.filter (fun c => decide (c ∉ dfT.cols))).dedup,
               (dfT.cols.filter (fun c => decide (c ∉ dfE.cols))).dedup)) := by
    unfold reconcile_schemas
    rw [if_neg (by simp [h])]
  refine ⟨?_, ?_, ?_, ?_, ?_, ?_⟩
  · unfold merge_step
    rw [hrec]
    rfl
  · intro c
    unfold merge_step
    rw [hrec]
    show c ∈ sortedCols _ ↔ _
    unfold sortedCols
    rw [List.mem_insertionSort, List.mem_dedup, List.mem_filter]
    simp
  · unfold merge_step
    rw [hrec]
  · rw [hrec]
  · intro c
    rw [List.mem_dedup, List.mem_filter]
    simp
  · intro c
    rw [List.mem_dedup, List.mem_filter]
    simp

/-- C7 witness: merging columns A, B, C into an existing A, B, D narrows to
exactly A, B with the warning naming D (existing only) and C (new only). -/
theorem schema_reconcile_narrows_witness :
    (merge_step dfABD dfABC).cols = ["A", "B"]
    ∧ (reconcile_schemas dfABD dfABC).2 = some (["D"], ["C"])
    ∧ (merge_step dfABD dfABC).rows
        = [[("A", 1), ("B", 2)], [("A", 4), ("B", 5)]] :=
  ⟨((schema_reconcile_narrows dfABD dfABC (by decide)).1).trans (by decide),
   ((schema_reconcile_narrows dfABD dfABC (by decide)).2.2.2.1).trans (by decide),
   by decide⟩

/-- C8 counterexample: a fact table whose every row fails to map to a
partition key (raceIds 77 and 78 have no match in races) does not return the
claimed failed outcome with the UnresolvablePartition kind: on an incremental
run over a fresh state it reports success, the written dataset holds none of
the two source rows (they are silently dropped by the year filter), and the
null key is committed to the state as a processed partition. -/
theorem unmapped_rows_silent_success :
    pt_core_null ceAllUnmatched "results" none [] false
      = (OutcomeV.success [none] 0 0,
         some ⟨["raceId", "pos", "year"], []⟩, some [none])
    ∧ (pt_core_null ceAllUnmatched "results" none [] false).1
        ≠ OutcomeV.failed PErr.noYearColumn
    ∧ unmatchedResultsDS.rows.length = 2 :=
  ⟨by decide, by decide, by decide⟩

/-- C8 amended: processTable resolves a partition key per row via the table
own year column or the raceId join with races, and a table with neither
mechanism fails with the no_year_column error (the code rendering of the
UnresolvablePartition kind), touching neither store nor state.  Rows the
join fails to map get a null key and are not surfaced as that kind: when the
distinct year values mix a null with resolvable years the table fails with
an incidental type error from the year sort, and when every row maps to the
null an incremental run reports success, silently drops those rows from the
written dataset, and commits the null as a processed partition. -/
theorem partition_resolution_amended (env : Env) (st : ProcState) (now : Int)
    (t : String) (init : Bool) (ce : CoreEnv) (df races dfT : Dataset)
    (sv : Option Dataset) (pr : List YearVal) :
    (has_year_column t = true → env.core.bronze.lookup t = some df →
      env.core.bronze.lookup "races" = some races → "raceId" ∉ df.cols →
      "year" ∉ df.cols →
      process_table_incremental env st now t init
        = ⟨Outcome.failed PErr.noYearColumn, env, st⟩)
    ∧ (has_year_column t = true → ce.bronze.lookup t = some df →
      ce.bronze.lookup "races" = some races → "raceId" ∈ df.cols →
      none ∈ yearValsOf races df → 2 ≤ (yearValsOf races df).length →
      pt_core_null ce t sv pr init
        = (OutcomeV.failed PErr.nullYearCompare, none, none))
    ∧ (has_year_column t = true → ce.bronze.lookup t = some df →
      ce.bronze.lookup "races" = some races → "raceId" ∈ df.cols →
      yearValsOf races df = [none] →
      ce.transform t (filter_year_vals (with_year races df) [none]) = .ok dfT →
      ce.writeOk t = true →
      pt_core_null ce t sv [] false
        = (OutcomeV.success [none] dfT.rows.length
             (pt_final sv false dfT).rows.length,
           some (pt_final sv false dfT), some [none])
      ∧ (filter_year_vals (with_year races df) [none]).rows = []) := by
  refine ⟨?_, ?_, ?_⟩
  · intro h1 h2 h3 h4 h5
    apply pt_of_core_none
    unfold pt_core prepare
    rw [if_neg (by simp [h1])]
    simp only [h2, h3]
    rw [if_pos ⟨h4, h5⟩]
  · intro h1 h2 h3 hrid hnone hlen
    unfold pt_core_null
    rw [if_neg (by simp [h1])]
    simp only [h2, h3]
    rw [if_neg (fun hc => hc.1 hrid), if_pos ⟨hnone, hlen⟩]
  · intro h1 h2 h3 hrid hyv htr hw
    constructor
    · unfold pt_core_null
      rw [if_neg (by simp [h1])]
      simp only [h2, h3]
      rw [if_neg (fun hc => hc.1 hrid)]
      have hmix : ¬ (none ∈ yearValsOf races df
          ∧ 2 ≤ (yearValsOf races df).length) := by
        rw [hyv]
        decide
      rw [if_neg hmix]
      have hav : availableOf races df = [none] := by
        unfold availableOf
        rw [hyv]
        decide
      rw [hav]
      have hpl : plan_year_vals [] [none] false = .ok [none] := by rfl
      simp only [hpl]
      have hne : ¬ ([none] : List YearVal) = [] := by decide
      rw [if_neg hne]
      simp only [htr]
      rw [if_pos hw]
      have hmark : ¬ (none ∈ ((([] : List YearVal) ++ [none]).dedup)
          ∧ 2 ≤ ((([] : List YearVal) ++ [none]).dedup).length) := by decide
      rw [if_neg hmark]
      have hus : sortYearVals ((([] : List YearVal) ++ [none]).dedup)
          = [none] := by decide
      rw [hus]
    · have hrows : ∀ r ∈ (with_year races df).rows, r.lookup "year" = none := by
        intro r hr
        have hm : r.lookup "year" ∈ yearValsOf races df := by
          unfold yearValsOf
          rw [List.mem_dedup]
          exact List.mem_map.mpr ⟨r, hr, rfl⟩
        rw [hyv] at hm
        simpa using hm
      show (with_year races df).rows.filter _ = []
      apply List.filter_eq_nil_iff.mpr
      intro r hr
      rw [hrows r hr]
      simp

/-- C8 amended witness: the no mechanism case at a results table carrying
only a resultId column, and the all rows unmatched case at the concrete
world, both through the amended theorem. -/
theorem partition_resolution_amended_witness :
    process_table_incremental envNoYear [] 0 "results" false
        = ⟨Outcome.failed PErr.noYearColumn, envNoYear, []⟩
    ∧ pt_core_null ceAllUnmatched "results" none [] false
        = (OutcomeV.success [none] 0 0,
           some ⟨["raceId", "pos", "year"], []⟩, some [none])
    ∧ (filter_year_vals (with_year racesDS unmatchedResultsDS) [none]).rows
        = [] :=
  ⟨(partition_resolution_amended envNoYear [] 0 "results" false ceAllUnmatched
      ⟨["resultId"], [[("resultId", 5)]]⟩ racesDS ⟨[], []⟩ none []).1
      (by decide) (by rfl) (by rfl) (by decide) (by decide),
   ((partition_resolution_amended envNoYear [] 0 "results" false ceAllUnmatched
      unmatchedResultsDS racesDS ⟨["raceId", "pos", "year"], []⟩ none []).2.2
      (by decide) (by rfl) (by rfl) (by decide) (by rfl) (by rfl) rfl).1,
   ((partition_resolution_amended envNoYear [] 0 "results" false ceAllUnmatched
      unmatchedResultsDS racesDS ⟨["raceId", "pos", "year"], []⟩ none []).2.2
      (by decide) (by rfl) (by rfl) (by decide) (by rfl) (by rfl) rfl).2⟩

/-- C9: every run yields exactly one outcome per fact table, in the fixed
order of TABLES_WITH_YEAR, and each outcome equals what processing that
table alone from the initial world and state yields — every exception is
converted into that table failed outcome inside process_table_incremental,
so a failure of one table neither aborts nor alters the processing of the
others. -/
theorem run_isolates_failures (env : Env) (st : ProcState) (now : Int)
    (init : Bool) :
    (process_all_incremental env st now init).1.length = TABLES_WITH_YEAR.length
    ∧ (process_all_incremental env st now init).1
        = TABLES_WITH_YEAR.map
            (fun u => (process_table_incremental env st now u init).outcome) :=
  ⟨run_tables_length now init TABLES_WITH_YEAR env st,
   run_tables_outcomes now now init TABLES_WITH_YEAR (by decide)
     env env st st rfl (fun u _ => ⟨rfl, rfl⟩)⟩

/-- C10: with a non empty processed set, an existing merged silver file and
an explicit bootstrap request, the planner runs in incremental mode (only
the unprocessed years) and yet the write path skips the append branch, so
the transformed slice alone is written as the entire merged dataset — the
previously merged rows are discarded — while the state store still lists
the old partitions (the union of old and newly planned years). -/
theorem bootstrap_with_state_overwrites (env : Env) (st : ProcState)
    (now : Int) (t : String) (p : Prepared) (dfE dfT : Dataset)
    (h1 : has_year_column t = true)
    (h2 : prepare env.core t = .ok p)
    (h3 : get_processed_years st t ≠ [])
    (h4 : env.silver.lookup t = some dfE)
    (h5 : plan_years (get_processed_years st t) p.available true ≠ [])
    (h6 : env.core.transform t (filter_years p.dfY
            (plan_years (get_processed_years st t) p.available true)) = .ok dfT)
    (h7 : env.core.writeOk t = true) :
    (process_table_incremental env st now t true).outcome
        = Outcome.success (plan_years (get_processed_years st t) p.available true)
            dfT.rows.length dfT.rows.length
    ∧ (process_table_incremental env st now t true).env.silver.lookup t
        = some dfT
    ∧ get_processed_years (process_table_incremental env st now t true).state t
        = union_sorted (get_processed_years st t)
            (plan_years (get_processed_years st t) p.available true)
    ∧ plan_years (get_processed_years st t) p.available true
        = (p.available.filter
            (fun y => decide (y ∉ get_processed_years st t))).insertionSort (· ≤ ·) := by
  have hfin : pt_final (env.silver.lookup t) true dfT = dfT := by
    unfold pt_final
    rw [if_neg (by simp)]
  have hcore : pt_core env.core t (env.silver.lookup t)
      (get_processed_years st t) true
      = (Outcome.success (plan_years (get_processed_years st t) p.available true)
          dfT.rows.length dfT.rows.length,
         some (dfT, plan_years (get_processed_years st t) p.available true)) := by
    unfold pt_core pt_plan_merge
    rw [if_neg (by simp [h1])]
    simp only [h2]
    rw [if_neg (fun hc => h3 hc.2.2), if_neg h5]
    simp only [h6]
    rw [if_pos h7, hfin]
  rw [pt_of_core_some env st now t true _ dfT
    (plan_years (get_processed_years st t) p.available true) hcore]
  refine ⟨rfl, ?_, ?_, ?_⟩
  · exact lookup_setAssoc_self _ _ _
  · exact get_processed_mark_self _ _ _ _
  · unfold plan_years
    rw [if_neg (fun hc => h3 hc.2)]

/-- C10 witness: races with 2005 already processed and an existing silver
file; a bootstrap request plans only 2012 and overwrites the store with the
single 2012 row. -/
theorem bootstrap_with_state_overwrites_witness :
    (process_table_incremental envBootState stRaces2005 7 "races" true).outcome
        = Outcome.success
            (plan_years (get_processed_years stRaces2005 "races")
              preparedRaces.available true) 1 1
    ∧ (process_table_incremental envBootState stRaces2005 7 "races"
          true).env.silver.lookup "races"
        = some ⟨["raceId", "year", "year_right"],
            [[("raceId", 2), ("year", 2012), ("year_right", 2012)]]⟩ :=
  ⟨(bootstrap_with_state_overwrites envBootState stRaces2005 7 "races"
      preparedRaces ⟨["raceId", "year"], [[("raceId", 9), ("year", 1999)]]⟩
      ⟨["raceId", "year", "year_right"],
       [[("raceId", 2), ("year", 2012), ("year_right", 2012)]]⟩
      (by decide) (by rfl) (by decide) (by rfl) (by decide) (by rfl) rfl).1,
   (bootstrap_with_state_overwrites envBootState stRaces2005 7 "races"
      preparedRaces ⟨["raceId", "year"], [[("raceId", 9), ("year", 1999)]]⟩
      ⟨["raceId", "year", "year_right"],
       [[("raceId", 2), ("year", 2012), ("year_right", 2012)]]⟩
      (by decide) (by rfl) (by decide) (by rfl) (by decide) (by rfl) rfl).2.1⟩
